import Mathlib

/-!
Shallow embedding of the release-asset resolution and client-platform-matching
pipeline of the mira-website repository.

Server side (`src/app/downloads/page.tsx`): asset-name classification,
best-asset selection, slot construction, release selection.
Client side (`download-cards.tsx`): relevance scoring, stable reordering,
applicability.
About page (`src/app/about/page.tsx`): roadmap markdown parsing and the
upcoming-release-plan computation.

JavaScript `Array.prototype.sort(cmp)` (stable per ES2019) is embedded as
`List.insertionSort` with the relation `le a b := cmp a b ≤ 0`: a stable
sort is uniquely determined by the (total, transitive) relation it sorts by,
so any stable sorting algorithm is a faithful model, and insertion sort is
structurally recursive and therefore evaluates inside the kernel.
JavaScript strings are embedded as `String` / `List Char`; regular-expression
tests are embedded as executable scanners with the same semantics on the
patterns used by the source (documented at each definition).
-/

namespace Mira

/-- Source `src/app/downloads/page.tsx` lines 4-8: a release asset.  `size` is a
byte count (a non-negative integer in the upstream JSON). -/
structure ReleaseAsset where
  name : String
  browser_download_url : String
  size : Nat
deriving DecidableEq, Repr

/-- Source `src/app/downloads/page.tsx` lines 10-19: a GitHub release. -/
structure GitHubRelease where
  id : Nat
  name : String
  tag_name : String
  html_url : String
  published_at : String
  prerelease : Bool
  draft : Bool
  assets : List ReleaseAsset
deriving DecidableEq, Repr

/-- The platform tag enumeration `"windows" | "mac-arm64" | "mac-x64"` of
`DownloadSlot` (`src/app/downloads/page.tsx` line 23). -/
inductive Platform where
  | windows
  | macArm64
  | macX64
deriving DecidableEq, Repr

/-- Source `src/app/downloads/page.tsx` lines 21-25: a download slot. -/
structure DownloadSlot where
  label : String
  platform : Platform
  asset : Option ReleaseAsset
deriving DecidableEq, Repr

/-! ### String helpers

The source lowercases names with `String.prototype.toLowerCase` and tests
them with `includes` / `endsWith` and a few regular expressions.  We embed a
JS string as its `List Char` and implement those operations directly. -/

/-- JS `name.toLowerCase()` (asset names are ASCII, where `Char.toLower` agrees
with the JS behaviour). -/
def lowerChars (s : String) : List Char :=
  s.toList.map Char.toLower

/-- JS `hay.includes(needle)`: `needle` occurs as a contiguous substring. -/
def strContains (hay : List Char) (needle : String) : Bool :=
  (List.range (hay.length + 1)).any
    (fun i => (hay.drop i).take needle.toList.length == needle.toList)

/-- JS `hay.endsWith(suffix)`. -/
def strEndsWith (hay : List Char) (suffix : String) : Bool :=
  suffix.toList.isSuffixOf hay

/-- A JS regex word character (`\w`, i.e. `[A-Za-z0-9_]`), used by the `\b`
boundaries in the architecture regexes. -/
def isWordChar (c : Char) : Bool :=
  c.isAlphanum || c == '_'

/-- The token `t` matches at index `i` of `s` with `\b` boundaries on both
sides (the tokens used by the source start and end with word characters,
for which `\bt\b` means: preceded and followed by a non-word character or
the string edge). -/
def tokenMatchesAt (s t : List Char) (i : Nat) : Bool :=
  ((s.drop i).take t.length == t) &&
  (i == 0 || !isWordChar (s.getD (i - 1) ' ')) &&
  !isWordChar (s.getD (i + t.length) ' ')

/-- Regex `/\bt\b/.test(s)` for a token `t` made of word characters. -/
def hasWordToken (s : List Char) (t : String) : Bool :=
  (List.range (s.length + 1)).any (fun i => tokenMatchesAt s t.toList i)

/-! ### Asset-name classification (`src/app/downloads/page.tsx` lines 38-96) -/

/-- Lines 38-43: the name ends in one of the downloadable extensions. -/
def isDownloadableAsset (name : String) : Bool :=
  let lower := lowerChars name
  [".exe", ".msi", ".dmg", ".pkg", ".zip", ".tar.gz"].any
    (fun ext => strEndsWith lower ext)

/-- Lines 45-48. -/
def isWindowsAsset (name : String) : Bool :=
  let lower := lowerChars name
  strContains lower "win" || strEndsWith lower ".exe" || strEndsWith lower ".msi"

/-- Lines 50-58. -/
def isMacAsset (name : String) : Bool :=
  let lower := lowerChars name
  strContains lower "mac" || strContains lower "darwin" ||
    strEndsWith lower ".dmg" || strEndsWith lower ".pkg"

/-- The result type of `getMacAssetArchitecture` (line 60). -/
inductive MacArch where
  | arm64
  | x64
  | unknown
deriving DecidableEq, Repr

/-- Lines 60-76.  The regexes `/\b(arm64|aarch64)\b/` and
`/\b(x64|x86_64|amd64)\b/ ∨ /\bintel\b/` are disjunctions of
word-boundary-delimited tokens, embedded through `hasWordToken`. -/
def getMacAssetArchitecture (name : String) : MacArch :=
  let lower := lowerChars name
  if hasWordToken lower "arm64" || hasWordToken lower "aarch64" ||
      strContains lower "apple-silicon" || strContains lower "apple_silicon" then
    .arm64
  else if hasWordToken lower "x64" || hasWordToken lower "x86_64" ||
      hasWordToken lower "amd64" || hasWordToken lower "intel" then
    .x64
  else
    .unknown

/-- Lines 78-86. -/
def isInstallerAsset (name : String) : Bool :=
  let lower := lowerChars name
  strContains lower "setup" || strEndsWith lower ".msi" ||
    strEndsWith lower ".dmg" || strEndsWith lower ".pkg"

/-- Lines 88-96. -/
def isPortableAsset (name : String) : Bool :=
  let lower := lowerChars name
  strContains lower "portable" || strEndsWith lower ".zip" ||
    strEndsWith lower ".tar.gz" ||
    (strEndsWith lower ".exe" && !strContains lower "setup")

/-! ### Best-asset selection (`chooseBestAsset`, lines 98-125) -/

/-- The score computed by the `reduce` on lines 107-115: each preferred term
contained in the lowercased name contributes `(terms.length - idx) * 10`. -/
def assetScore (preferredTerms : List String) (lower : List Char) : Nat :=
  preferredTerms.enum.foldl
    (fun score p =>
      if strContains lower p.2 then score + (preferredTerms.length - p.1) * 10
      else score)
    0

/-- The comparator of lines 103-122, as the relation `cmp a b ≤ 0` used by
the stable sort: higher score first, ties broken by larger size. -/
def chooseBestAssetLE (preferredTerms : List String) (a b : ReleaseAsset) : Bool :=
  let aScore := assetScore preferredTerms (lowerChars a.name)
  let bScore := assetScore preferredTerms (lowerChars b.name)
  if aScore == bScore then b.size ≤ a.size else bScore < aScore

/-- Lines 98-125: sort a copy of the pool with the comparator and return the
first element (`ranked[0] ?? null`); the empty pool yields `null`. -/
def chooseBestAsset (assets : List ReleaseAsset) (preferredTerms : List String) :
    Option ReleaseAsset :=
  if assets.length == 0 then none
  else (List.insertionSort (fun a b => chooseBestAssetLE preferredTerms a b) assets).head?

/-! ### Slot construction (`buildDownloadSlots`, lines 127-200) -/

/-- The record returned by `buildDownloadSlots` (lines 127-134). -/
structure DownloadSlots where
  windowsInstaller : DownloadSlot
  windowsPortable : DownloadSlot
  macArm64Installer : DownloadSlot
  macArm64Portable : DownloadSlot
  macX64Installer : DownloadSlot
  macX64Portable : DownloadSlot
deriving DecidableEq, Repr

/-- Lines 127-200, with the candidate pools built by the same chains of
`filter` as the source. -/
def buildDownloadSlots (release : GitHubRelease) : DownloadSlots :=
  let assets := release.assets.filter (fun asset => isDownloadableAsset asset.name)
  let windowsAssets := assets.filter (fun asset => isWindowsAsset asset.name)
  let macAssets := assets.filter (fun asset => isMacAsset asset.name)
  let windowsInstallerAssets := windowsAssets.filter (fun asset => isInstallerAsset asset.name)
  let windowsPortableAssets := windowsAssets.filter (fun asset => isPortableAsset asset.name)
  let macArm64Assets := macAssets.filter
    (fun asset => getMacAssetArchitecture asset.name == MacArch.arm64)
  let macX64Assets := macAssets.filter
    (fun asset => getMacAssetArchitecture asset.name == MacArch.x64)
  let macUnknownArchAssets := macAssets.filter
    (fun asset => getMacAssetArchitecture asset.name == MacArch.unknown)
  let macArm64InstallerAssets := macArm64Assets.filter (fun asset => isInstallerAsset asset.name)
  let macArm64PortableAssets := macArm64Assets.filter (fun asset => isPortableAsset asset.name)
  let macX64InstallerAssets := macX64Assets.filter (fun asset => isInstallerAsset asset.name)
  let macX64PortableAssets := macX64Assets.filter (fun asset => isPortableAsset asset.name)
  let macUnknownInstallerAssets := macUnknownArchAssets.filter
    (fun asset => isInstallerAsset asset.name)
  let macUnknownPortableAssets := macUnknownArchAssets.filter
    (fun asset => isPortableAsset asset.name)
  { windowsInstaller :=
      { label := "Windows Installer"
        platform := .windows
        asset := chooseBestAsset windowsInstallerAssets ["setup", ".msi", ".exe"] }
    windowsPortable :=
      { label := "Windows Portable"
        platform := .windows
        asset := chooseBestAsset windowsPortableAssets ["portable", ".exe", ".zip"] }
    macArm64Installer :=
      { label := "macOS (Apple Silicon) Installer"
        platform := .macArm64
        asset := chooseBestAsset
          (if macArm64InstallerAssets.length > 0 then macArm64InstallerAssets
           else macUnknownInstallerAssets)
          ["dmg", "pkg"] }
    macArm64Portable :=
      { label := "macOS (Apple Silicon) Portable"
        platform := .macArm64
        asset := chooseBestAsset
          (if macArm64PortableAssets.length > 0 then macArm64PortableAssets
           else macUnknownPortableAssets)
          ["portable", ".zip", ".tar.gz"] }
    macX64Installer :=
      { label := "macOS (Intel) Installer"
        platform := .macX64
        asset := chooseBestAsset
          (if macX64InstallerAssets.length > 0 then macX64InstallerAssets
           else macUnknownInstallerAssets)
          ["dmg", "pkg"] }
    macX64Portable :=
      { label := "macOS (Intel) Portable"
        platform := .macX64
        asset := chooseBestAsset
          (if macX64PortableAssets.length > 0 then macX64PortableAssets
           else macUnknownPortableAssets)
          ["portable", ".zip", ".tar.gz"] } }

/-- The six slots in the fixed order in which the page hands them to
`DownloadCards` (`src/app/downloads/page.tsx` lines 288-295). -/
def slotsList (s : DownloadSlots) : List DownloadSlot :=
  [s.windowsInstaller, s.windowsPortable,
   s.macArm64Installer, s.macArm64Portable,
   s.macX64Installer, s.macX64Portable]

/-! ### Release fetching and page-level selection
(`src/app/downloads/page.tsx` lines 30-36, 202-217, 231-245) -/

/-- The upstream release-feed response: an HTTP success flag and the decoded
JSON body (only read when `ok`). -/
structure UpstreamResponse where
  ok : Bool
  body : List GitHubRelease
deriving DecidableEq, Repr

/-- Lines 202-217: a non-success response yields the empty list; a successful
one is filtered to the non-draft releases. -/
def fetchReleases (response : UpstreamResponse) : List GitHubRelease :=
  if !response.ok then []
  else response.body.filter (fun release => !release.draft)

/-- The `searchParams.includePrereleases` value:
`string | string[] | undefined`. -/
inductive SearchParamValue where
  | missing
  | str (s : String)
  | arr (l : List String)
deriving DecidableEq, Repr

/-- Lines 30-36. -/
def parseIncludePrereleases (value : SearchParamValue) : Bool :=
  match value with
  | .arr l => l.contains "1" || l.contains "true"
  | .str s => s == "1" || s == "true"
  | .missing => false

/-- The resolution-relevant outputs of the `DownloadsPage` server component. -/
structure DownloadsPageModel where
  hasStableLatest : Bool
  effectiveIncludePrereleases : Bool
  selectedRelease : Option GitHubRelease
  slots : Option DownloadSlots
deriving DecidableEq, Repr

/-- Lines 231-245: the release-selection logic of `DownloadsPage`
(`allReleases[0] ?? null` is `List.head?`). -/
def downloadsPage (response : UpstreamResponse) (includePrereleasesParam : SearchParamValue) :
    DownloadsPageModel :=
  let userIncludePrereleases := parseIncludePrereleases includePrereleasesParam
  let allReleases := fetchReleases response
  let stableReleases := allReleases.filter (fun release => !release.prerelease)
  let hasStableLatest := stableReleases.length > 0
  let effectiveIncludePrereleases := userIncludePrereleases || !hasStableLatest
  let selectedRelease :=
    if effectiveIncludePrereleases then allReleases.head? else stableReleases.head?
  { hasStableLatest := hasStableLatest
    effectiveIncludePrereleases := effectiveIncludePrereleases
    selectedRelease := selectedRelease
    slots := selectedRelease.map buildDownloadSlots }

/-- Line 266: the "No GitHub release is currently available." notice is
rendered exactly when no release was selected. -/
def rendersNoReleaseNotice (m : DownloadsPageModel) : Bool :=
  m.selectedRelease.isNone

/-! ### Client platform matcher (`download-cards.tsx`) -/

/-- Source `download-cards.tsx` line 20: the detected client platform. -/
inductive DetectedOS where
  | windows
  | macArm64
  | macX64
  | mac
  | other
  | unknown
deriving DecidableEq, Repr

/-- The JS string comparison `slot.platform === os` (platform strings are
`"windows" | "mac-arm64" | "mac-x64"`, a strict subset of the detected-OS
strings). -/
def osOfPlatform (p : Platform) : DetectedOS :=
  match p with
  | .windows => .windows
  | .macArm64 => .macArm64
  | .macX64 => .macX64

/-- Source `download-cards.tsx` lines 136-170. -/
def getRelevanceScore (slot : DownloadSlot) (os : DetectedOS) : Nat :=
  if os == .unknown || os == .other then 0
  else if os == .windows then
    (if slot.platform == .windows then 0 else 2)
  else if os == .macArm64 then
    (if slot.platform == .macArm64 then 0
     else if slot.platform == .macX64 then 1
     else 2)
  else if os == .macX64 then
    (if slot.platform == .macX64 then 0
     else if slot.platform == .macArm64 then 1
     else 2)
  else if os == .mac then
    (if slot.platform == .windows then 2 else 0)
  else 0

/-- The comparator of `download-cards.tsx` line 190 as the relation
`cmp a b ≤ 0`: ascending relevance score. -/
def relevanceLE (os : DetectedOS) (a b : DownloadSlot) : Bool :=
  getRelevanceScore a os ≤ getRelevanceScore b os

/-- Source `download-cards.tsx` lines 189-192: `[...slots].sort((a, b) =>
getRelevanceScore(a, os) - getRelevanceScore(b, os))`, a stable sort by
ascending relevance score. -/
def orderedSlots (slots : List DownloadSlot) (os : DetectedOS) : List DownloadSlot :=
  List.insertionSort (fun a b => relevanceLE os a b) slots

/-- Source `download-cards.tsx` lines 197-201. -/
def isApplicable (slot : DownloadSlot) (os : DetectedOS) : Bool :=
  os == .unknown ||
  os == .other ||
  (os == .mac && (slot.platform == .macArm64 || slot.platform == .macX64)) ||
  osOfPlatform slot.platform == os

/-! ### About page: roadmap parsing (`src/app/about/page.tsx`) -/

/-- Source `src/app/about/page.tsx` lines 26-30. -/
structure ParsedSemver where
  major : Nat
  minor : Nat
  patch : Nat
deriving DecidableEq, Repr

/-- Source `src/app/about/page.tsx` lines 32-35. -/
structure RoadmapItem where
  done : Bool
  text : String
deriving DecidableEq, Repr

/-- Source `src/app/about/page.tsx` lines 37-41. -/
structure RoadmapMilestone where
  heading : String
  version : ParsedSemver
  items : List RoadmapItem
deriving DecidableEq, Repr

/-- A JS regex whitespace character (`\s`), restricted to the ASCII range
(the roadmap text is ASCII). -/
def isWsChar (c : Char) : Bool :=
  c == ' ' || c == '\t' || c == '\n' || c == '\r' || c == '\x0b' || c == '\x0c'

/-- JS `String.prototype.trim()`. -/
def trimChars (s : List Char) : List Char :=
  ((s.dropWhile isWsChar).reverse.dropWhile isWsChar).reverse

/-- JS `Number` on a non-empty digit string. -/
def digitsToNat (ds : List Char) : Nat :=
  ds.foldl (fun n c => n * 10 + (c.toNat - '0'.toNat)) 0

/-- Matcher for `\d+\.\d+\.\d+\b` anchored at the start of `s`, returning
the three (maximal, hence backtracking-free) digit runs.  The trailing `\b`
holds when the next character is a non-word character or the string ends. -/
def matchSemverTripleHere (s : List Char) : Option (List Char × List Char × List Char) :=
  let d1 := s.takeWhile Char.isDigit
  let r1 := s.dropWhile Char.isDigit
  if d1.isEmpty then none
  else
    match r1 with
    | '.' :: s2 =>
      let d2 := s2.takeWhile Char.isDigit
      let r2 := s2.dropWhile Char.isDigit
      if d2.isEmpty then none
      else
        match r2 with
        | '.' :: s3 =>
          let d3 := s3.takeWhile Char.isDigit
          let r3 := s3.dropWhile Char.isDigit
          if d3.isEmpty then none
          else
            match r3 with
            | [] => some (d1, d2, d3)
            | c :: _ => if isWordChar c then none else some (d1, d2, d3)
        | _ => none
    | _ => none

/-- Leftmost match of `/(\d+)\.(\d+)\.(\d+)\b/` in `s`
(`src/app/about/page.tsx` line 57). -/
def findSemverTriple : List Char → Option (List Char × List Char × List Char)
  | [] => matchSemverTripleHere []
  | s@(_ :: rest) =>
    match matchSemverTripleHere s with
    | some t => some t
    | none => findSemverTriple rest

/-- Source `src/app/about/page.tsx` lines 55-68 (`parseSemver`): trim, strip a
single leading `v`/`V` (`replace(/^v/i, "")`), then match the dotted triple
and convert each captured group with `Number`. -/
def parseSemver (value : String) : Option ParsedSemver :=
  let cleaned :=
    match trimChars value.toList with
    | c :: rest => if c == 'v' || c == 'V' then rest else c :: rest
    | [] => []
  match findSemverTriple cleaned with
  | some (d1, d2, d3) => some ⟨digitsToNat d1, digitsToNat d2, digitsToNat d3⟩
  | none => none

/-- Source `src/app/about/page.tsx` lines 70-72. -/
def formatSemver (value : ParsedSemver) : String :=
  "v" ++ toString value.major ++ "." ++ toString value.minor ++ "." ++ toString value.patch

/-- Source `src/app/about/page.tsx` lines 74-78: the JS comparator, an
integer whose sign orders versions. -/
def compareSemver (a b : ParsedSemver) : Int :=
  if a.major ≠ b.major then (a.major : Int) - (b.major : Int)
  else if a.minor ≠ b.minor then (a.minor : Int) - (b.minor : Int)
  else (a.patch : Int) - (b.patch : Int)

/-- Matcher for the heading-version regex `/v?(\d+\.\d+\.\d+)\b/i` anchored
at the start of `s`: the greedy optional `v` is tried first and backtracked
when the triple does not follow. -/
def matchVersionTokenHere (s : List Char) : Option (List Char × List Char × List Char) :=
  match s with
  | c :: rest =>
    if c == 'v' || c == 'V' then
      match matchSemverTripleHere rest with
      | some t => some t
      | none => matchSemverTripleHere s
    else matchSemverTripleHere s
  | [] => matchSemverTripleHere []

/-- Leftmost match of `/v?(\d+\.\d+\.\d+)\b/i` (`src/app/about/page.tsx`
line 89), returning the capture group. -/
def findVersionToken : List Char → Option (List Char × List Char × List Char)
  | [] => matchVersionTokenHere []
  | s@(_ :: rest) =>
    match matchVersionTokenHere s with
    | some t => some t
    | none => findVersionToken rest

/-- The capture group `(\d+\.\d+\.\d+)` as the substring it matched. -/
def versionCaptureString (t : List Char × List Char × List Char) : String :=
  String.mk (t.1 ++ '.' :: t.2.1 ++ '.' :: t.2.2)

/-- Matcher for a `\s+(.+)$` regex tail on a single line `t`: at least one
whitespace character, then a non-empty capture extending to the end of the
input (`$` without the `m` flag anchors only at end of input).  JS `.`
matches neither `'\n'` (absent: the input is one line of a split) nor
`'\r'`, while `\s` does match `'\r'`; the backtracking greedy `\s+`
therefore succeeds exactly when the suffix left by the largest feasible
whitespace drop — `min` of the whitespace-prefix length and `t.length - 1`,
so the capture stays non-empty — is free of carriage returns.  Returns
`capture.trim()`, which equals trimming all of `t`, since the capture
differs from `t` only by dropped whitespace. -/
def matchWsCaptureToEnd (t : List Char) : Option String :=
  match t with
  | c :: _ :: _ =>
    if isWsChar c &&
        (t.drop (min (t.takeWhile isWsChar).length (t.length - 1))).all (fun d => d != '\r')
    then some (String.mk (trimChars t))
    else none
  | _ => none

/-- Matcher for the heading regex `/^##\s+(.+)$/` (`src/app/about/page.tsx`
line 86), returning `headingMatch[1].trim()`: the literal `##`, then the
`\s+(.+)$` tail. -/
def matchHeadingLine (line : List Char) : Option String :=
  match line with
  | '#' :: '#' :: t => matchWsCaptureToEnd t
  | _ => none

/-- Matcher for the task regex `/^[-*]\s+\[([ xX])\]\s+(.+)$/`
(`src/app/about/page.tsx` line 101), returning the parsed item with
`done := capture1.toLowerCase() === "x"` and `text := capture2.trim()`.
The `\s+` before the literal `\[` reduces to `dropWhile` (a shorter
whitespace run would leave a whitespace character where `\[` is required),
and the `\s+(.+)$` tail is `matchWsCaptureToEnd`, including its
no-carriage-return constraint on the capture. -/
def matchTaskLine (line : List Char) : Option RoadmapItem :=
  match line with
  | m :: t =>
    if m == '-' || m == '*' then
      match t with
      | c :: _ =>
        if isWsChar c then
          match t.dropWhile isWsChar with
          | '[' :: b :: ']' :: v =>
            if b == ' ' || b == 'x' || b == 'X' then
              match matchWsCaptureToEnd v with
              | some text => some ⟨b == 'x' || b == 'X', text⟩
              | none => none
            else none
          | _ => none
        else none
      | [] => none
    else none
  | [] => none

/-- JS `markdown.split(/\r?\n/)`: split at every `'\n'`, absorbing one
immediately preceding `'\r'` into the separator.  `acc` holds the current
line reversed. -/
def splitLinesAux : List Char → List Char → List (List Char)
  | [], acc => [acc.reverse]
  | '\n' :: rest, acc =>
    (match acc with
     | '\r' :: acc2 => acc2.reverse
     | _ => acc.reverse) :: splitLinesAux rest []
  | c :: rest, acc => splitLinesAux rest (c :: acc)

/-- JS `markdown.split(/\r?\n/)`. -/
def splitLines (s : List Char) : List (List Char) :=
  splitLinesAux s []

/-- The line loop of `parseRoadmapMarkdown` (`src/app/about/page.tsx`
lines 85-108).  The source pushes the current milestone into the output list
when its heading is seen and then mutates its `items` in place; here the
current milestone is carried in `cur` and flushed when it is replaced or the
input ends, which yields the same list. -/
def parseRoadmapLines : List (List Char) → Option RoadmapMilestone → List RoadmapMilestone
  | [], cur => cur.toList
  | line :: rest, cur =>
    match matchHeadingLine line with
    | some heading =>
      let version :=
        match findVersionToken heading.toList with
        | some cap => parseSemver (versionCaptureString cap)
        | none => none
      match version with
      | some v => cur.toList ++ parseRoadmapLines rest (some ⟨heading, v, []⟩)
      | none => cur.toList ++ parseRoadmapLines rest none
    | none =>
      match matchTaskLine line with
      | some item =>
        match cur with
        | some m => parseRoadmapLines rest (some ⟨m.heading, m.version, m.items ++ [item]⟩)
        | none => parseRoadmapLines rest none
      | none => parseRoadmapLines rest cur

/-- Source `src/app/about/page.tsx` lines 80-111. -/
def parseRoadmapMarkdown (markdown : String) : List RoadmapMilestone :=
  parseRoadmapLines (splitLines markdown.toList) none

/-- Source `src/app/about/page.tsx` lines 43-49. -/
structure UpcomingReleasePlan where
  currentVersion : Option String
  nextVersionHeading : String
  items : List String
  sourceUrl : Option String
  hasNextVersion : Bool
deriving DecidableEq, Repr

/-- The tail of `fetchUpcomingReleasePlan` (`src/app/about/page.tsx`
lines 273-282): build the plan from the chosen milestone. -/
def planFromMilestone (currentVersion : Option ParsedSemver) (sourceUrl : String)
    (nextMilestone : RoadmapMilestone) : UpcomingReleasePlan :=
  let uncheckedItems :=
    (nextMilestone.items.filter (fun item => !item.done)).map (fun item => item.text)
  let items :=
    if uncheckedItems.length > 0 then uncheckedItems
    else nextMilestone.items.map (fun item => item.text)
  { currentVersion := currentVersion.map formatSemver
    nextVersionHeading := nextMilestone.heading
    items := if items.length > 0 then items else ["No tasks listed for this milestone."]
    sourceUrl := some sourceUrl
    hasNextVersion := true }

/-- The pure core of `fetchUpcomingReleasePlan` (`src/app/about/page.tsx`
lines 221-286): the fetched roadmap (markdown plus source URL, `none` when
unavailable) and the fetched current stable version are passed in as values;
`milestones.sort(compareSemver-comparator)` is the stable sort by
`compareSemver ≤ 0`, and `find` is `List.find?`. -/
def computeUpcomingReleasePlan (roadmap : Option (String × String))
    (currentVersion : Option ParsedSemver) : Option UpcomingReleasePlan :=
  match roadmap with
  | none => none
  | some (markdown, sourceUrl) =>
    let milestones := List.insertionSort
      (fun a b => compareSemver a.version b.version ≤ 0) (parseRoadmapMarkdown markdown)
    match milestones with
    | [] => none
    | baseline :: _ =>
      match currentVersion with
      | some cv =>
        match milestones.find? (fun m => compareSemver m.version cv > 0) with
        | some nextMilestone => some (planFromMilestone (some cv) sourceUrl nextMilestone)
        | none =>
          match milestones.find? (fun m => m.items.any (fun item => !item.done)) with
          | some firstUpcomingWithWork =>
            let uncheckedFallback :=
              (firstUpcomingWithWork.items.filter (fun item => !item.done)).map
                (fun item => item.text)
            some
              { currentVersion := some (formatSemver cv)
                nextVersionHeading := firstUpcomingWithWork.heading
                items :=
                  if uncheckedFallback.length > 0 then uncheckedFallback
                  else ["No tasks listed for this milestone."]
                sourceUrl := some sourceUrl
                hasNextVersion := true }
          | none =>
            some
              { currentVersion := some (formatSemver cv)
                nextVersionHeading := "No newer roadmap milestone listed yet"
                items := ["ROADMAP.md currently has no version higher than the latest stable release."]
                sourceUrl := some sourceUrl
                hasNextVersion := false }
      | none =>
        let nextMilestone :=
          ((milestones.find? (fun m => compareSemver m.version baseline.version > 0)).orElse
            (fun _ => milestones.find? (fun m => m.items.any (fun item => !item.done)))).getD
            baseline
        some (planFromMilestone none sourceUrl nextMilestone)

/-! ### Named candidate pools

The `let`-bound pools inside `buildDownloadSlots`, as standalone definitions
(the same `filter` chains in the same order), so that theorems can speak
about them. -/

/-- Pool `assets` (line 135). -/
def downloadableAssets (release : GitHubRelease) : List ReleaseAsset :=
  release.assets.filter (fun asset => isDownloadableAsset asset.name)

/-- Pool `windowsAssets` (line 137). -/
def windowsAssetsOf (release : GitHubRelease) : List ReleaseAsset :=
  (downloadableAssets release).filter (fun asset => isWindowsAsset asset.name)

/-- Pool `macAssets` (line 138). -/
def macAssetsOf (release : GitHubRelease) : List ReleaseAsset :=
  (downloadableAssets release).filter (fun asset => isMacAsset asset.name)

/-- Pool `windowsInstallerAssets` (line 140). -/
def windowsInstallerPool (release : GitHubRelease) : List ReleaseAsset :=
  (windowsAssetsOf release).filter (fun asset => isInstallerAsset asset.name)

/-- Pool `windowsPortableAssets` (line 141). -/
def windowsPortablePool (release : GitHubRelease) : List ReleaseAsset :=
  (windowsAssetsOf release).filter (fun asset => isPortableAsset asset.name)

/-- Pools `macArm64Assets` / `macX64Assets` / `macUnknownArchAssets`
(lines 143-147). -/
def macArchAssets (release : GitHubRelease) (arch : MacArch) : List ReleaseAsset :=
  (macAssetsOf release).filter (fun asset => getMacAssetArchitecture asset.name == arch)

/-- Pools for mac installers (lines 149, 151, 153). -/
def macInstallerPool (release : GitHubRelease) (arch : MacArch) : List ReleaseAsset :=
  (macArchAssets release arch).filter (fun asset => isInstallerAsset asset.name)

/-- Pools for mac portables (lines 150, 152, 154). -/
def macPortablePool (release : GitHubRelease) (arch : MacArch) : List ReleaseAsset :=
  (macArchAssets release arch).filter (fun asset => isPortableAsset asset.name)

/-! ### Concrete example inputs (used by the witness theorems) -/

def exSetup : ReleaseAsset := ⟨"Mira-Setup-x64.exe", "https://example.test/setup", 120⟩

def exMsi : ReleaseAsset := ⟨"Mira-x64.msi", "https://example.test/msi", 90⟩

def exZip : ReleaseAsset := ⟨"mira-win-portable.zip", "https://example.test/zip", 80⟩

def exMacDmg : ReleaseAsset := ⟨"mira-mac.dmg", "https://example.test/dmg", 150⟩

def exMacArmZip : ReleaseAsset := ⟨"mira-mac-arm64.zip", "https://example.test/armzip", 70⟩

def exRelease : GitHubRelease :=
  ⟨1, "Mira", "v1.2.0", "https://example.test/rel", "2025-01-01T00:00:00Z", false, false,
   [exSetup, exMsi, exZip, exMacDmg, exMacArmZip]⟩

def exEmptyRelease : GitHubRelease :=
  ⟨2, "Mira", "v1.2.1", "https://example.test/rel2", "2025-02-01T00:00:00Z", false, false, []⟩

def exPrerelease : GitHubRelease :=
  ⟨3, "Mira beta", "v1.3.0-beta.1", "https://example.test/rel3", "2025-03-01T00:00:00Z", true,
   false, []⟩

def exSlotA : DownloadSlot := ⟨"Windows Installer", .windows, some exSetup⟩

def exSlotB : DownloadSlot := ⟨"Windows Portable", .windows, some exZip⟩

def exRoadmapMd : String :=
  "# Roadmap\n\n## v1.2.0\n- [x] Ship theme system\n\n## v1.3.0\n- [ ] Add vertical tabs\n- [x] Polish settings\n"

/-- The relevance table as written in the spec (section 4.2), for comparison
with the code's `getRelevanceScore`: rows are the detected platform, columns
the slot platform; lower is more relevant. -/
def specRelevanceScore (detected : DetectedOS) (slotPlatform : Platform) : Nat :=
  match detected, slotPlatform with
  | .windows, .windows => 0
  | .windows, .macArm64 => 2
  | .windows, .macX64 => 2
  | .macArm64, .windows => 2
  | .macArm64, .macArm64 => 0
  | .macArm64, .macX64 => 1
  | .macX64, .windows => 2
  | .macX64, .macArm64 => 1
  | .macX64, .macX64 => 0
  | .mac, .windows => 2
  | .mac, .macArm64 => 0
  | .mac, .macX64 => 0
  | .other, _ => 0
  | .unknown, _ => 0

/-! ## Helper lemmas -/

theorem chooseBestAssetLE_total (terms : List String) (a b : ReleaseAsset) :
    chooseBestAssetLE terms a b || chooseBestAssetLE terms b a := by
  unfold chooseBestAssetLE
  by_cases h : assetScore terms (lowerChars a.name) = assetScore terms (lowerChars b.name)
  · simp only [h, beq_self_eq_true, if_true]
    simp only [Bool.or_eq_true, decide_eq_true_eq]
    omega
  · have h2 : assetScore terms (lowerChars b.name) ≠ assetScore terms (lowerChars a.name) :=
      Ne.symm h
    simp only [beq_iff_eq, h, h2, if_false]
    simp only [Bool.or_eq_true, decide_eq_true_eq]
    omega

theorem chooseBestAssetLE_trans (terms : List String) (a b c : ReleaseAsset) :
    chooseBestAssetLE terms a b → chooseBestAssetLE terms b c → chooseBestAssetLE terms a c := by
  unfold chooseBestAssetLE
  simp only [beq_iff_eq]
  split_ifs <;> simp only [decide_eq_true_eq] <;> omega

theorem chooseBestAsset_mem {assets : List ReleaseAsset} {terms : List String}
    {best : ReleaseAsset} (h : chooseBestAsset assets terms = some best) : best ∈ assets := by
  unfold chooseBestAsset at h
  split at h
  · simp at h
  · exact (List.perm_insertionSort _ assets).subset (List.mem_of_mem_head? h)

/-- Core of C1: on a non-empty pool, `chooseBestAsset` returns a member of
the pool that maximises the score, with ties broken by larger size. -/
theorem chooseBestAsset_isMax {assets : List ReleaseAsset} {terms : List String}
    (h : assets ≠ []) :
    ∃ best, chooseBestAsset assets terms = some best ∧ best ∈ assets ∧
      ∀ a ∈ assets,
        assetScore terms (lowerChars a.name) ≤ assetScore terms (lowerChars best.name) ∧
        (assetScore terms (lowerChars a.name) = assetScore terms (lowerChars best.name) →
          a.size ≤ best.size) := by
  have hne : List.insertionSort (fun a b => chooseBestAssetLE terms a b) assets ≠ [] := by
    intro hs
    apply h
    have hlen := (List.perm_insertionSort (fun a b => chooseBestAssetLE terms a b) assets).length_eq
    rw [hs] at hlen
    exact List.length_eq_zero.mp hlen.symm
  obtain ⟨b, t, hbt⟩ := List.exists_cons_of_ne_nil hne
  have hg : (assets.length == 0) = false := by
    simp only [beq_eq_false_iff_ne, ne_eq, List.length_eq_zero]
    exact h
  haveI : IsTotal ReleaseAsset (fun a b => chooseBestAssetLE terms a b) :=
    ⟨fun a b => by
      have := chooseBestAssetLE_total terms a b
      rcases Bool.or_eq_true_iff.mp this with h1 | h1
      · exact Or.inl h1
      · exact Or.inr h1⟩
  haveI : IsTrans ReleaseAsset (fun a b => chooseBestAssetLE terms a b) :=
    ⟨fun a b c => chooseBestAssetLE_trans terms a b c⟩
  refine ⟨b, ?_, ?_, ?_⟩
  · simp only [chooseBestAsset, hg, Bool.false_eq_true, if_false, hbt, List.head?_cons]
  · exact (List.perm_insertionSort _ assets).subset (hbt ▸ List.mem_cons_self b t)
  · intro a ha
    have hmem : a ∈ b :: t := hbt ▸ (List.perm_insertionSort _ assets).symm.subset ha
    have hpair : (b :: t).Pairwise (fun x y => chooseBestAssetLE terms x y) := by
      rw [← hbt]
      exact List.sorted_insertionSort (fun a b => chooseBestAssetLE terms a b) assets
    rcases List.mem_cons.mp hmem with rfl | hat
    · exact ⟨le_refl _, fun _ => le_refl _⟩
    · have hle := (List.pairwise_cons.mp hpair).1 a hat
      unfold chooseBestAssetLE at hle
      by_cases hs : assetScore terms (lowerChars b.name) = assetScore terms (lowerChars a.name)
      · simp only [hs, beq_self_eq_true, if_true, decide_eq_true_eq] at hle
        exact ⟨le_of_eq hs.symm, fun _ => hle⟩
      · simp only [beq_iff_eq, hs, if_false, decide_eq_true_eq] at hle
        exact ⟨le_of_lt hle, fun heq => absurd heq.symm hs⟩

/-! ## Claim theorems -/

/-- C1: for every non-empty pool and preferred-term list, `chooseBestAsset`
returns the pool member with maximal score (earlier terms weighing more via
`(remainingTermsCount) * 10`), ties broken by larger byte size; the empty
pool yields `none`; and for every release whose windows-installer pool is
non-empty, the windows-installer slot holds exactly such a highest-scoring
candidate of that pool. -/
theorem chooseBestAsset_selects_max (assets : List ReleaseAsset) (preferredTerms : List String) :
    chooseBestAsset [] preferredTerms = none ∧
    (assets ≠ [] →
      ∃ best, chooseBestAsset assets preferredTerms = some best ∧ best ∈ assets ∧
        ∀ a ∈ assets,
          assetScore preferredTerms (lowerChars a.name)
              ≤ assetScore preferredTerms (lowerChars best.name) ∧
          (assetScore preferredTerms (lowerChars a.name)
              = assetScore preferredTerms (lowerChars best.name) →
            a.size ≤ best.size)) ∧
    (∀ release : GitHubRelease, windowsInstallerPool release ≠ [] →
      ∃ best, (buildDownloadSlots release).windowsInstaller.asset = some best ∧
        best ∈ windowsInstallerPool release ∧
        ∀ a ∈ windowsInstallerPool release,
          assetScore ["setup", ".msi", ".exe"] (lowerChars a.name)
              ≤ assetScore ["setup", ".msi", ".exe"] (lowerChars best.name) ∧
          (assetScore ["setup", ".msi", ".exe"] (lowerChars a.name)
              = assetScore ["setup", ".msi", ".exe"] (lowerChars best.name) →
            a.size ≤ best.size)) := by
  refine ⟨rfl, fun h => chooseBestAsset_isMax h, fun release h => ?_⟩
  have hslot : (buildDownloadSlots release).windowsInstaller.asset
      = chooseBestAsset (windowsInstallerPool release) ["setup", ".msi", ".exe"] := rfl
  rw [hslot]
  exact chooseBestAsset_isMax h

/-- Witness for C1 at concrete inputs. -/
theorem chooseBestAsset_selects_max_witness :
    ([exSetup, exMsi] ≠ [] ∧ windowsInstallerPool exRelease ≠ []) ∧
    (∃ best, chooseBestAsset [exSetup, exMsi] ["setup", ".msi", ".exe"] = some best ∧
      best ∈ [exSetup, exMsi] ∧
      ∀ a ∈ [exSetup, exMsi],
        assetScore ["setup", ".msi", ".exe"] (lowerChars a.name)
            ≤ assetScore ["setup", ".msi", ".exe"] (lowerChars best.name) ∧
        (assetScore ["setup", ".msi", ".exe"] (lowerChars a.name)
            = assetScore ["setup", ".msi", ".exe"] (lowerChars best.name) →
          a.size ≤ best.size)) ∧
    (∃ best, (buildDownloadSlots exRelease).windowsInstaller.asset = some best ∧
      best ∈ windowsInstallerPool exRelease ∧
      ∀ a ∈ windowsInstallerPool exRelease,
        assetScore ["setup", ".msi", ".exe"] (lowerChars a.name)
            ≤ assetScore ["setup", ".msi", ".exe"] (lowerChars best.name) ∧
        (assetScore ["setup", ".msi", ".exe"] (lowerChars a.name)
            = assetScore ["setup", ".msi", ".exe"] (lowerChars best.name) →
          a.size ≤ best.size)) :=
  ⟨⟨by decide, by decide⟩,
   (chooseBestAsset_selects_max [exSetup, exMsi] ["setup", ".msi", ".exe"]).2.1 (by decide),
   (chooseBestAsset_selects_max [exSetup, exMsi] ["setup", ".msi", ".exe"]).2.2 exRelease
     (by decide)⟩

/-! ## Slot-level helper lemmas -/

theorem chooseBestAsset_nil (terms : List String) : chooseBestAsset [] terms = none := rfl

theorem buildDownloadSlots_windowsInstaller_asset (release : GitHubRelease) :
    (buildDownloadSlots release).windowsInstaller.asset
      = chooseBestAsset (windowsInstallerPool release) ["setup", ".msi", ".exe"] := rfl

theorem buildDownloadSlots_windowsPortable_asset (release : GitHubRelease) :
    (buildDownloadSlots release).windowsPortable.asset
      = chooseBestAsset (windowsPortablePool release) ["portable", ".exe", ".zip"] := rfl

theorem buildDownloadSlots_macArm64Installer_asset (release : GitHubRelease) :
    (buildDownloadSlots release).macArm64Installer.asset
      = chooseBestAsset
          (if (macInstallerPool release .arm64).length > 0 then macInstallerPool release .arm64
           else macInstallerPool release .unknown)
          ["dmg", "pkg"] := rfl

theorem buildDownloadSlots_macArm64Portable_asset (release : GitHubRelease) :
    (buildDownloadSlots release).macArm64Portable.asset
      = chooseBestAsset
          (if (macPortablePool release .arm64).length > 0 then macPortablePool release .arm64
           else macPortablePool release .unknown)
          ["portable", ".zip", ".tar.gz"] := rfl

theorem buildDownloadSlots_macX64Installer_asset (release : GitHubRelease) :
    (buildDownloadSlots release).macX64Installer.asset
      = chooseBestAsset
          (if (macInstallerPool release .x64).length > 0 then macInstallerPool release .x64
           else macInstallerPool release .unknown)
          ["dmg", "pkg"] := rfl

theorem buildDownloadSlots_macX64Portable_asset (release : GitHubRelease) :
    (buildDownloadSlots release).macX64Portable.asset
      = chooseBestAsset
          (if (macPortablePool release .x64).length > 0 then macPortablePool release .x64
           else macPortablePool release .unknown)
          ["portable", ".zip", ".tar.gz"] := rfl

theorem mem_downloadableAssets {release : GitHubRelease} {a : ReleaseAsset}
    (h : a ∈ downloadableAssets release) :
    a ∈ release.assets ∧ isDownloadableAsset a.name = true := by
  simpa [downloadableAssets] using List.mem_filter.mp h

theorem windowsInstallerPool_subset (release : GitHubRelease) :
    windowsInstallerPool release ⊆ downloadableAssets release := by
  intro a ha
  exact List.filter_subset' _ (List.filter_subset' _ ha)

theorem windowsPortablePool_subset (release : GitHubRelease) :
    windowsPortablePool release ⊆ downloadableAssets release := by
  intro a ha
  exact List.filter_subset' _ (List.filter_subset' _ ha)

theorem macInstallerPool_subset (release : GitHubRelease) (arch : MacArch) :
    macInstallerPool release arch ⊆ downloadableAssets release := by
  intro a ha
  exact List.filter_subset' _ (List.filter_subset' _ (List.filter_subset' _ ha))

theorem macPortablePool_subset (release : GitHubRelease) (arch : MacArch) :
    macPortablePool release arch ⊆ downloadableAssets release := by
  intro a ha
  exact List.filter_subset' _ (List.filter_subset' _ (List.filter_subset' _ ha))

/-- C3: slot construction never fails and always yields exactly the six
canonical slots with their fixed labels and platform tags, in the fixed
order; a release with zero assets yields six `asset = none` slots. -/
theorem buildDownloadSlots_six_slots (release : GitHubRelease) :
    (slotsList (buildDownloadSlots release)).length = 6 ∧
    (slotsList (buildDownloadSlots release)).map (fun slot => (slot.label, slot.platform)) =
      [("Windows Installer", Platform.windows),
       ("Windows Portable", Platform.windows),
       ("macOS (Apple Silicon) Installer", Platform.macArm64),
       ("macOS (Apple Silicon) Portable", Platform.macArm64),
       ("macOS (Intel) Installer", Platform.macX64),
       ("macOS (Intel) Portable", Platform.macX64)] ∧
    (release.assets = [] → ∀ slot ∈ slotsList (buildDownloadSlots release), slot.asset = none) := by
  refine ⟨rfl, rfl, fun h slot hslot => ?_⟩
  rcases release with ⟨rid, rname, rtag, rurl, rpub, rpre, rdraft, rassets⟩
  simp only at h
  subst h
  simp only [buildDownloadSlots, slotsList, List.filter_nil, List.length_nil, gt_iff_lt,
    Nat.lt_irrefl, if_false, ite_self, chooseBestAsset_nil, List.mem_cons,
    List.not_mem_nil, or_false] at hslot
  rcases hslot with h | h | h | h | h | h <;> subst h <;> rfl

/-- Witness for C3 at a concrete zero-asset release. -/
theorem buildDownloadSlots_six_slots_witness :
    exEmptyRelease.assets = [] ∧
    ∀ slot ∈ slotsList (buildDownloadSlots exEmptyRelease), slot.asset = none :=
  ⟨rfl, (buildDownloadSlots_six_slots exEmptyRelease).2.2 rfl⟩

/-- C6: for each mac architecture and installer/portable style, the slot's
candidate pool is the exact-architecture pool when it is non-empty, and
otherwise the unknown-architecture pool of the same style. -/
theorem mac_pool_fallback (release : GitHubRelease) :
    (macInstallerPool release .arm64 ≠ [] →
      (buildDownloadSlots release).macArm64Installer.asset
        = chooseBestAsset (macInstallerPool release .arm64) ["dmg", "pkg"]) ∧
    (macInstallerPool release .arm64 = [] →
      (buildDownloadSlots release).macArm64Installer.asset
        = chooseBestAsset (macInstallerPool release .unknown) ["dmg", "pkg"]) ∧
    (macPortablePool release .arm64 ≠ [] →
      (buildDownloadSlots release).macArm64Portable.asset
        = chooseBestAsset (macPortablePool release .arm64) ["portable", ".zip", ".tar.gz"]) ∧
    (macPortablePool release .arm64 = [] →
      (buildDownloadSlots release).macArm64Portable.asset
        = chooseBestAsset (macPortablePool release .unknown) ["portable", ".zip", ".tar.gz"]) ∧
    (macInstallerPool release .x64 ≠ [] →
      (buildDownloadSlots release).macX64Installer.asset
        = chooseBestAsset (macInstallerPool release .x64) ["dmg", "pkg"]) ∧
    (macInstallerPool release .x64 = [] →
      (buildDownloadSlots release).macX64Installer.asset
        = chooseBestAsset (macInstallerPool release .unknown) ["dmg", "pkg"]) ∧
    (macPortablePool release .x64 ≠ [] →
      (buildDownloadSlots release).macX64Portable.asset
        = chooseBestAsset (macPortablePool release .x64) ["portable", ".zip", ".tar.gz"]) ∧
    (macPortablePool release .x64 = [] →
      (buildDownloadSlots release).macX64Portable.asset
        = chooseBestAsset (macPortablePool release .unknown) ["portable", ".zip", ".tar.gz"]) := by
  refine ⟨fun h => ?_, fun h => ?_, fun h => ?_, fun h => ?_,
          fun h => ?_, fun h => ?_, fun h => ?_, fun h => ?_⟩
  · rw [buildDownloadSlots_macArm64Installer_asset, if_pos (List.length_pos.mpr h)]
  · rw [buildDownloadSlots_macArm64Installer_asset, h]
    simp
  · rw [buildDownloadSlots_macArm64Portable_asset, if_pos (List.length_pos.mpr h)]
  · rw [buildDownloadSlots_macArm64Portable_asset, h]
    simp
  · rw [buildDownloadSlots_macX64Installer_asset, if_pos (List.length_pos.mpr h)]
  · rw [buildDownloadSlots_macX64Installer_asset, h]
    simp
  · rw [buildDownloadSlots_macX64Portable_asset, if_pos (List.length_pos.mpr h)]
  · rw [buildDownloadSlots_macX64Portable_asset, h]
    simp

/-- Witness for C6: in `exRelease` the arm64 portable pool is non-empty
(exact pool used) and the arm64 installer pool is empty (fallback used). -/
theorem mac_pool_fallback_witness :
    (macPortablePool exRelease .arm64 ≠ [] ∧
      (buildDownloadSlots exRelease).macArm64Portable.asset
        = chooseBestAsset (macPortablePool exRelease .arm64) ["portable", ".zip", ".tar.gz"]) ∧
    (macInstallerPool exRelease .arm64 = [] ∧
      (buildDownloadSlots exRelease).macArm64Installer.asset
        = chooseBestAsset (macInstallerPool exRelease .unknown) ["dmg", "pkg"]) :=
  ⟨⟨by decide, (mac_pool_fallback exRelease).2.2.1 (by decide)⟩,
   ⟨by decide, (mac_pool_fallback exRelease).2.1 (by decide)⟩⟩

/-- C10: every non-null slot asset is an element of the release's own asset
list whose lowercased name ends in a downloadable extension; the resolver
never fabricates or selects a non-downloadable asset. -/
theorem slot_assets_come_from_release (release : GitHubRelease) (slot : DownloadSlot)
    (hslot : slot ∈ slotsList (buildDownloadSlots release)) (a : ReleaseAsset)
    (ha : slot.asset = some a) :
    a ∈ release.assets ∧ isDownloadableAsset a.name = true := by
  have hchoose : ∀ (pool : List ReleaseAsset) (terms : List String),
      pool ⊆ downloadableAssets release → chooseBestAsset pool terms = some a →
      a ∈ release.assets ∧ isDownloadableAsset a.name = true :=
    fun pool terms hsub hcb => mem_downloadableAssets (hsub (chooseBestAsset_mem hcb))
  simp only [slotsList, List.mem_cons, List.not_mem_nil, or_false] at hslot
  rcases hslot with h | h | h | h | h | h <;> subst h
  · rw [buildDownloadSlots_windowsInstaller_asset] at ha
    exact hchoose _ _ (windowsInstallerPool_subset release) ha
  · rw [buildDownloadSlots_windowsPortable_asset] at ha
    exact hchoose _ _ (windowsPortablePool_subset release) ha
  · rw [buildDownloadSlots_macArm64Installer_asset] at ha
    split at ha
    · exact hchoose _ _ (macInstallerPool_subset release .arm64) ha
    · exact hchoose _ _ (macInstallerPool_subset release .unknown) ha
  · rw [buildDownloadSlots_macArm64Portable_asset] at ha
    split at ha
    · exact hchoose _ _ (macPortablePool_subset release .arm64) ha
    · exact hchoose _ _ (macPortablePool_subset release .unknown) ha
  · rw [buildDownloadSlots_macX64Installer_asset] at ha
    split at ha
    · exact hchoose _ _ (macInstallerPool_subset release .x64) ha
    · exact hchoose _ _ (macInstallerPool_subset release .unknown) ha
  · rw [buildDownloadSlots_macX64Portable_asset] at ha
    split at ha
    · exact hchoose _ _ (macPortablePool_subset release .x64) ha
    · exact hchoose _ _ (macPortablePool_subset release .unknown) ha

/-- Witness for C10 at a concrete release and slot. -/
theorem slot_assets_come_from_release_witness :
    ((buildDownloadSlots exRelease).windowsInstaller ∈ slotsList (buildDownloadSlots exRelease) ∧
      (buildDownloadSlots exRelease).windowsInstaller.asset = some exSetup) ∧
    (exSetup ∈ exRelease.assets ∧ isDownloadableAsset exSetup.name = true) :=
  ⟨⟨by simp [slotsList], by decide⟩,
   slot_assets_come_from_release exRelease (buildDownloadSlots exRelease).windowsInstaller
     (by simp [slotsList]) exSetup (by decide)⟩

/-- C2: the effective include-prereleases decision is the requested flag OR
"no stable release exists"; the selected release is the head of the full
non-draft list when pre-releases are included, else the head of the stable
sublist; a false flag with zero stable releases forces the decision to true
and selects the most recent release overall; an empty list selects none. -/
theorem downloadsPage_release_selection (response : UpstreamResponse) (v : SearchParamValue) :
    ((downloadsPage response v).effectiveIncludePrereleases
        = (parseIncludePrereleases v
            || ((fetchReleases response).filter (fun r => !r.prerelease)).isEmpty)) ∧
    ((downloadsPage response v).selectedRelease
        = if (downloadsPage response v).effectiveIncludePrereleases
          then (fetchReleases response).head?
          else ((fetchReleases response).filter (fun r => !r.prerelease)).head?) ∧
    ((parseIncludePrereleases v = false ∧
        (fetchReleases response).filter (fun r => !r.prerelease) = []) →
      (downloadsPage response v).effectiveIncludePrereleases = true ∧
      (downloadsPage response v).selectedRelease = (fetchReleases response).head?) ∧
    (fetchReleases response = [] → (downloadsPage response v).selectedRelease = none) := by
  have hstable : (decide (0 < ((fetchReleases response).filter (fun r => !r.prerelease)).length))
      = !((fetchReleases response).filter (fun r => !r.prerelease)).isEmpty := by
    cases (fetchReleases response).filter (fun r => !r.prerelease) <;> simp
  refine ⟨?_, ?_, ?_, ?_⟩
  · simp only [downloadsPage, gt_iff_lt, hstable, Bool.not_not]
  · simp only [downloadsPage, gt_iff_lt, hstable, Bool.not_not]
  · rintro ⟨hflag, hnil⟩
    constructor
    · simp [downloadsPage, hflag, hnil]
    · simp [downloadsPage, hflag, hnil]
  · intro hnil
    simp only [downloadsPage, hnil, List.filter_nil, List.head?_nil, ite_self]

/-- Witness for C2: a feed holding only a pre-release, with the flag absent. -/
theorem downloadsPage_release_selection_witness :
    (parseIncludePrereleases .missing = false ∧
      (fetchReleases ⟨true, [exPrerelease]⟩).filter (fun r => !r.prerelease) = []) ∧
    ((downloadsPage ⟨true, [exPrerelease]⟩ .missing).effectiveIncludePrereleases = true ∧
      (downloadsPage ⟨true, [exPrerelease]⟩ .missing).selectedRelease
        = (fetchReleases ⟨true, [exPrerelease]⟩).head?) :=
  ⟨⟨by decide, by decide⟩,
   (downloadsPage_release_selection ⟨true, [exPrerelease]⟩ .missing).2.2.1
     ⟨by decide, by decide⟩⟩

/-- C7: a non-success upstream response makes `fetchReleases` return the
empty list rather than an error, drafts are filtered from any successful
response, and an empty release list makes the page select no release, build
no slots, and render the empty "no release available" state. -/
theorem fetchReleases_degrades_gracefully (response : UpstreamResponse) (v : SearchParamValue) :
    (response.ok = false → fetchReleases response = []) ∧
    (∀ r ∈ fetchReleases response, r.draft = false) ∧
    (fetchReleases response = [] →
      (downloadsPage response v).selectedRelease = none ∧
      (downloadsPage response v).slots = none ∧
      rendersNoReleaseNotice (downloadsPage response v) = true) := by
  refine ⟨fun h => ?_, fun r hr => ?_, fun h => ?_⟩
  · simp [fetchReleases, h]
  · unfold fetchReleases at hr
    split at hr
    · simp at hr
    · have := (List.mem_filter.mp hr).2
      simpa using this
  · have hsel : (downloadsPage response v).selectedRelease = none := by
      simp only [downloadsPage, h, List.filter_nil, List.head?_nil, ite_self]
    refine ⟨hsel, ?_, ?_⟩
    · simp only [downloadsPage] at hsel ⊢
      rw [hsel]
      rfl
    · simp only [rendersNoReleaseNotice, hsel, Option.isNone_none]

/-- Witness for C7 at a failed fetch. -/
theorem fetchReleases_degrades_gracefully_witness :
    (UpstreamResponse.mk false [exRelease]).ok = false ∧
    fetchReleases ⟨false, [exRelease]⟩ = [] ∧
    (downloadsPage ⟨false, [exRelease]⟩ .missing).selectedRelease = none ∧
    rendersNoReleaseNotice (downloadsPage ⟨false, [exRelease]⟩ .missing) = true :=
  ⟨rfl,
   (fetchReleases_degrades_gracefully ⟨false, [exRelease]⟩ .missing).1 rfl,
   ((fetchReleases_degrades_gracefully ⟨false, [exRelease]⟩ .missing).2.2 (by decide)).1,
   ((fetchReleases_degrades_gracefully ⟨false, [exRelease]⟩ .missing).2.2 (by decide)).2.2⟩

/-- C4: the client relevance score computed by the code agrees with the
spec's table for every slot and every detected platform. -/
theorem getRelevanceScore_matches_table (slot : DownloadSlot) (os : DetectedOS) :
    getRelevanceScore slot os = specRelevanceScore os slot.platform := by
  obtain ⟨l, p, a⟩ := slot
  cases os <;> cases p <;> rfl

/-- C5: reordering by relevance is a permutation of the input (no slot or
asset is added or removed), it is stable (equal-score slots keep their
relative order), and for detected platform mac-arm64 every mac-arm64 slot
precedes every mac-x64 slot, which precedes every windows slot. -/
theorem orderedSlots_permutation_and_ranking (slots : List DownloadSlot) (os : DetectedOS) :
    (orderedSlots slots os).Perm slots ∧
    (∀ a b : DownloadSlot, [a, b].Sublist slots →
      getRelevanceScore a os = getRelevanceScore b os →
      [a, b].Sublist (orderedSlots slots os)) ∧
    (orderedSlots slots .macArm64).Pairwise (fun a b =>
      ¬(a.platform = .macX64 ∧ b.platform = .macArm64) ∧
      ¬(a.platform = .windows ∧ b.platform ≠ .windows)) := by
  have score_arm : ∀ s : DownloadSlot,
      getRelevanceScore s .macArm64 =
        (match s.platform with
         | .macArm64 => 0
         | .macX64 => 1
         | .windows => 2) := by
    intro s
    obtain ⟨l, p, a⟩ := s
    cases p <;> rfl
  refine ⟨List.perm_insertionSort _ slots, fun a b hsub heq => ?_, ?_⟩
  · refine List.pair_sublist_insertionSort ?_ hsub
    simp [relevanceLE, heq]
  · haveI : IsTotal DownloadSlot (fun a b => relevanceLE .macArm64 a b) :=
      ⟨fun a b => by
        simp only [relevanceLE, decide_eq_true_eq]
        omega⟩
    haveI : IsTrans DownloadSlot (fun a b => relevanceLE .macArm64 a b) :=
      ⟨fun a b c hab hbc => by
        simp only [relevanceLE, decide_eq_true_eq] at hab hbc ⊢
        omega⟩
    have hsorted := List.sorted_insertionSort (fun a b => relevanceLE .macArm64 a b) slots
    refine hsorted.imp ?_
    intro a b hab
    have hle : getRelevanceScore a .macArm64 ≤ getRelevanceScore b .macArm64 := by
      simpa [relevanceLE] using hab
    rw [score_arm a, score_arm b] at hle
    constructor
    · rintro ⟨ha, hb⟩
      rw [ha, hb] at hle
      simp at hle
    · rintro ⟨ha, hb⟩
      rw [ha] at hle
      rcases hpb : b.platform with _ | _ | _
      · exact hb hpb
      · rw [hpb] at hle
        simp at hle
      · rw [hpb] at hle
        simp at hle

/-- Witness for C5: two equal-score (windows) slots stay in order. -/
theorem orderedSlots_permutation_and_ranking_witness :
    ([exSlotA, exSlotB].Sublist [exSlotA, exSlotB] ∧
      getRelevanceScore exSlotA .macArm64 = getRelevanceScore exSlotB .macArm64) ∧
    [exSlotA, exSlotB].Sublist (orderedSlots [exSlotA, exSlotB] .macArm64) :=
  ⟨⟨List.Sublist.refl _, rfl⟩,
   (orderedSlots_permutation_and_ranking [exSlotA, exSlotB] .macArm64).2.1 exSlotA exSlotB
     (List.Sublist.refl _) rfl⟩

/-- C8: a slot is applicable exactly when detection is still unknown or
other, or the detected platform is generic mac and the slot is one of the
two mac platforms, or the slot platform equals the detected platform; the
characterization is independent of the relevance ranking. -/
theorem isApplicable_characterization (slot : DownloadSlot) (os : DetectedOS) :
    isApplicable slot os = true ↔
      (os = .unknown ∨ os = .other ∨
        (os = .mac ∧ (slot.platform = .macArm64 ∨ slot.platform = .macX64)) ∨
        osOfPlatform slot.platform = os) := by
  obtain ⟨l, p, a⟩ := slot
  cases os <;> cases p <;> simp [isApplicable, osOfPlatform]

/-- C9: for roadmap markdown parsing to a `v1.2.0` milestone whose items
are all checked followed by a `v1.3.0` milestone with exactly one unchecked
item, and current stable version `v1.2.0`, the computed plan has
`nextVersionHeading = "v1.3.0"` and its items are exactly that single
unchecked item's text. -/
theorem upcomingPlan_selects_next_version (md sourceUrl t : String)
    (m1 m2 : RoadmapMilestone)
    (hparse : parseRoadmapMarkdown md = [m1, m2])
    (h1h : m1.heading = "v1.2.0") (h1v : m1.version = ⟨1, 2, 0⟩)
    (h1done : ∀ item ∈ m1.items, item.done = true)
    (h2h : m2.heading = "v1.3.0") (h2v : m2.version = ⟨1, 3, 0⟩)
    (h2un : m2.items.filter (fun item => !item.done) = [⟨false, t⟩]) :
    ∃ plan,
      computeUpcomingReleasePlan (some (md, sourceUrl)) (some ⟨1, 2, 0⟩) = some plan ∧
      plan.nextVersionHeading = "v1.3.0" ∧ plan.items = [t] := by
  have hsort : List.insertionSort (fun a b => compareSemver a.version b.version ≤ 0)
      (parseRoadmapMarkdown md) = [m1, m2] := by
    rw [hparse]
    simp only [List.insertionSort, List.orderedInsert_nil, List.orderedInsert]
    rw [if_pos]
    rw [h1v, h2v]
    decide
  have hfind : List.find?
      (fun m => decide (compareSemver m.version (⟨1, 2, 0⟩ : ParsedSemver) > 0)) [m1, m2]
      = some m2 := by
    have e1 : ¬(decide (compareSemver m1.version (⟨1, 2, 0⟩ : ParsedSemver) > 0) = true) := by
      rw [h1v]
      decide
    have e2 : decide (compareSemver m2.version (⟨1, 2, 0⟩ : ParsedSemver) > 0) = true := by
      rw [h2v]
      decide
    calc List.find? (fun m => decide (compareSemver m.version (⟨1, 2, 0⟩ : ParsedSemver) > 0))
          [m1, m2]
        = List.find? (fun m => decide (compareSemver m.version (⟨1, 2, 0⟩ : ParsedSemver) > 0))
          [m2] := List.find?_cons_of_neg _ e1
      _ = some m2 := List.find?_cons_of_pos _ e2
  refine ⟨planFromMilestone (some ⟨1, 2, 0⟩) sourceUrl m2, ?_, ?_, ?_⟩
  · simp only [computeUpcomingReleasePlan, hsort, hfind]
  · simp [planFromMilestone, h2h]
  · simp [planFromMilestone, h2un]

/-- Witness for C9 at a concrete roadmap document. -/
theorem upcomingPlan_selects_next_version_witness :
    (parseRoadmapMarkdown exRoadmapMd =
      [⟨"v1.2.0", ⟨1, 2, 0⟩, [⟨true, "Ship theme system"⟩]⟩,
       ⟨"v1.3.0", ⟨1, 3, 0⟩, [⟨false, "Add vertical tabs"⟩, ⟨true, "Polish settings"⟩]⟩]) ∧
    ∃ plan,
      computeUpcomingReleasePlan (some (exRoadmapMd, "https://example.test/roadmap"))
          (some ⟨1, 2, 0⟩) = some plan ∧
      plan.nextVersionHeading = "v1.3.0" ∧ plan.items = ["Add vertical tabs"] :=
  ⟨by decide,
   upcomingPlan_selects_next_version exRoadmapMd "https://example.test/roadmap"
     "Add vertical tabs"
     ⟨"v1.2.0", ⟨1, 2, 0⟩, [⟨true, "Ship theme system"⟩]⟩
     ⟨"v1.3.0", ⟨1, 3, 0⟩, [⟨false, "Add vertical tabs"⟩, ⟨true, "Polish settings"⟩]⟩
     (by decide) rfl rfl (by decide) rfl rfl (by decide)⟩

end Mira
